import Mathlib

set_option maxRecDepth 16384

/-!
Verification development for the PDF outline extractor
(`heading_detector.py`, `pdf_processor.py`, `app.py`, `utils.py`).

The repository contains two pipeline variants:
* `pdf_processor.py` defines the `PDFProcessor` imported by `app.py`
  (namespace `PP` below);
* `heading_detector.py` defines `HeadingDetector` (shared by both) and a second
  `PDFProcessor` variant with `_filter_headings` (namespace `HD` below).

Modelling conventions (shallow embedding):
* Strings are Lean `String`s; the Python string operations used by the code
  (`.strip()`, `.lower()`, `.split()`, `.isdigit()`, `in`-substring tests and
  the concrete regular expressions appearing in the source) are implemented as
  executable functions over `List Char`, faithful to ASCII semantics (the code's
  data is ASCII; Python's Unicode case rules are out of scope).
* Each concrete regular expression of the source is compiled by hand to a
  deterministic matcher; the patterns involved have pairwise disjoint character
  classes at every choice point, so greedy matching coincides with Python's
  backtracking semantics.
* Font sizes are modelled as integers; the code's real-valued comparisons
  (`size >= 1.5 * avg`, `size > 1.2 * avg`, `size >= 0.9 * max`, and the
  75th-percentile threshold) are embedded exactly by cross-multiplying with the
  positive denominators, so no division or floating point is needed.
* The external PDF parser (pdfplumber / PyPDF2) and the glyph-to-line geometry
  (`_group_chars_into_lines`, `_extract_text_blocks`) are the out-of-scope
  collaborator: a `RawPage` supplies per page the extracted plain text, whether
  the page has characters, and the already-assembled text blocks.
* The only exception modelled is the one reachable in the embedded fragment:
  `statistics.quantiles` raising on fewer than two data points; fallible code
  returns `Except String`.
-/

/-! ## Python character and string primitives -/

/-- Python `\s` / `str.strip()` whitespace over ASCII:
space, tab, newline, carriage return, vertical tab, form feed. -/
def pyIsSpace (c : Char) : Bool :=
  c = ' ' || c = '\t' || c = '\n' || c = '\r' || c = '\x0b' || c = '\x0c'

/-- The ASCII uppercase/lowercase pairs used to model `str.lower()`. -/
def lowerPairs : List (Char × Char) :=
  [ ('A', 'a'), ('B', 'b'), ('C', 'c'), ('D', 'd'), ('E', 'e'), ('F', 'f'),
    ('G', 'g'), ('H', 'h'), ('I', 'i'), ('J', 'j'), ('K', 'k'), ('L', 'l'),
    ('M', 'm'), ('N', 'n'), ('O', 'o'), ('P', 'p'), ('Q', 'q'), ('R', 'r'),
    ('S', 's'), ('T', 't'), ('U', 'u'), ('V', 'v'), ('W', 'w'), ('X', 'x'),
    ('Y', 'y'), ('Z', 'z') ]

/-- Python `str.lower()` on one character (ASCII model). -/
def pyLower (c : Char) : Char :=
  ((lowerPairs.find? (fun p => p.1 == c)).map Prod.snd).getD c

/-- Python `str.lower()` on a character list. -/
def lowerL (l : List Char) : List Char := l.map pyLower

/-- Python `str.strip()` on a character list. -/
def stripL (l : List Char) : List Char :=
  (l.dropWhile pyIsSpace).rdropWhile pyIsSpace

/-- Python `str.strip()` on a `String`. -/
def pyStrip (s : String) : String := ⟨stripL s.data⟩

/-- Python `str.lower()` on a `String`. -/
def pyLowerS (s : String) : String := ⟨lowerL s.data⟩

/-- `needle.isPref hay`: `needle` is a prefix of `hay` (both char lists). -/
def isPref : List Char → List Char → Bool
  | [], _ => true
  | _ :: _, [] => false
  | c :: n, d :: h => c = d && isPref n h

/-- Python `needle in hay` substring test on char lists. -/
def containsSub (needle : List Char) : List Char → Bool
  | [] => isPref needle []
  | d :: h => isPref needle (d :: h) || containsSub needle h

/-- Python `needle in hay` on `String`s. -/
def containsSubS (needle hay : String) : Bool := containsSub needle.data hay.data

/-- Count of the maximal whitespace-separated words, Python `len(s.split())`. -/
def wordCountAux : Bool → List Char → ℕ
  | _, [] => 0
  | inWord, c :: t =>
    if pyIsSpace c then wordCountAux false t
    else if inWord then wordCountAux true t
    else 1 + wordCountAux true t

/-- Python `len(s.split())`. -/
def wordCount (s : String) : ℕ := wordCountAux false s.data

/-- Python `str.isdigit()` (ASCII model): nonempty and all digits. -/
def pyIsDigitStr (s : String) : Bool :=
  !s.data.isEmpty && s.data.all Char.isDigit

/-- Python `str.isupper()` (ASCII model): at least one cased character and no
lowercase character. -/
def pyIsUpperStr (s : String) : Bool :=
  s.data.any Char.isAlpha && s.data.all (fun c => !c.isLower)

/-- Python `str.istitle()` (ASCII model): uppercase letters only follow uncased
characters, lowercase letters only follow cased ones, at least one letter. -/
def pyIsTitleAux : Bool → Bool → List Char → Bool
  | _, seen, [] => seen
  | prevCased, seen, c :: t =>
    if c.isUpper then (if prevCased then false else pyIsTitleAux true true t)
    else if c.isLower then (if prevCased then pyIsTitleAux true true t else false)
    else pyIsTitleAux false seen t

/-- Python `str.istitle()`. -/
def pyIsTitleStr (s : String) : Bool := pyIsTitleAux false false s.data

/-! ## `HeadingDetector._clean_heading_text` and
`PDFProcessor._normalize_heading_text` -/

/-- `re.sub(r'\s+', ' ', text)`: collapse every whitespace run to one space. -/
def collapseWsAux : Bool → List Char → List Char
  | _, [] => []
  | prevWs, c :: t =>
    if pyIsSpace c then
      (if prevWs then collapseWsAux true t else ' ' :: collapseWsAux true t)
    else c :: collapseWsAux false t

def collapseWs (l : List Char) : List Char := collapseWsAux false l

/-- `re.sub(r'\s*\.{3,}\s*\d+$', '', text)`: drop a trailing run of at least
three leader dots (with optional surrounding whitespace) followed by a page
number.  Matched from the right; the pattern's character classes are disjoint,
so this is the match `re.sub` removes. -/
def dropTrailingLeaderNum (l : List Char) : List Char :=
  let r := l.reverse
  let digs := r.takeWhile Char.isDigit
  let r1 := r.dropWhile Char.isDigit
  let r2 := r1.dropWhile pyIsSpace
  let dots := r2.takeWhile (fun c => c = '.')
  let r3 := r2.dropWhile (fun c => c = '.')
  let r4 := r3.dropWhile pyIsSpace
  if !digs.isEmpty && decide (3 ≤ dots.length) then r4.reverse else l

/-- `re.sub(r'\s+\d+$', '', text)`: drop a trailing bare page number. -/
def dropTrailingNum (l : List Char) : List Char :=
  let r := l.reverse
  let digs := r.takeWhile Char.isDigit
  let r1 := r.dropWhile Char.isDigit
  let ws := r1.takeWhile pyIsSpace
  let r2 := r1.dropWhile pyIsSpace
  if !digs.isEmpty && !ws.isEmpty then r2.reverse else l

/-- `re.match(r'^\d+\.\d', text)`: a leading `N.N` numbering form. -/
def matchesNumDotNum (l : List Char) : Bool :=
  let digs := l.takeWhile Char.isDigit
  let r := l.dropWhile Char.isDigit
  !digs.isEmpty &&
    match r with
    | '.' :: d :: _ => d.isDigit
    | _ => false

/-- `re.sub(r'^\d+[\s.)]*', '', text)`: strip a leading bare number together
with trailing spaces, dots and closing parentheses. -/
def dropLeadingNum (l : List Char) : List Char :=
  let digs := l.takeWhile Char.isDigit
  let r := l.dropWhile Char.isDigit
  if digs.isEmpty then l
  else r.dropWhile (fun c => pyIsSpace c || c = '.' || c = ')')

/-- `HeadingDetector._clean_heading_text`. -/
def clean_heading_text (s : String) : String :=
  let t1 := collapseWs s.data
  let t2 := dropTrailingLeaderNum t1
  let t3 := dropTrailingNum t2
  let t4 := if matchesNumDotNum t3 then t3 else dropLeadingNum t3
  ⟨stripL t4⟩

/-- `PDFProcessor._normalize_heading_text` (heading_detector.py):
`re.sub(r'[^a-zA-Z0-9]', '', text.lower())`. -/
def normalize_heading_text (s : String) : String :=
  ⟨(lowerL s.data).filter Char.isAlphanum⟩

/-! ### Facts about `pyLower` -/

theorem pyLower_idem (c : Char) : pyLower (pyLower c) = pyLower c := by
  rcases hf : lowerPairs.find? (fun p => p.1 == c) with _ | p
  · simp [pyLower, hf]
  · have hmem : p ∈ lowerPairs := List.mem_of_find?_eq_some hf
    have h1 : pyLower c = p.2 := by simp [pyLower, hf]
    have h2 : ∀ q ∈ lowerPairs, pyLower q.2 = q.2 := by decide
    rw [h1, h2 p hmem]

theorem pyIsSpace_pyLower (c : Char) : pyIsSpace (pyLower c) = pyIsSpace c := by
  rcases hf : lowerPairs.find? (fun p => p.1 == c) with _ | p
  · simp [pyLower, hf]
  · have hmem : p ∈ lowerPairs := List.mem_of_find?_eq_some hf
    have hc : p.1 = c := by
      have := List.find?_some hf
      simpa using this
    have h1 : pyLower c = p.2 := by simp [pyLower, hf]
    have h2 : ∀ q ∈ lowerPairs, pyIsSpace q.2 = false ∧ pyIsSpace q.1 = false := by
      decide
    rw [h1, (h2 p hmem).1, ← hc, (h2 p hmem).2]

/-! ## HeadingDetector: pattern matchers

Each matcher hand-compiles one regular expression from
`HeadingDetector.__init__`; `re.match` anchors at the start and every pattern
below that needs it ends in `$`.  At every choice point of these patterns the
adjacent character classes are disjoint, so greedy scanning is equivalent to
Python's backtracking. -/

/-- The class `[a-zA-Z0-9_ ]`. -/
def isWordSpCh (c : Char) : Bool := c.isAlphanum || c = '_' || c = ' '

/-- The class `[a-zA-Z ]`. -/
def isAlphaSpCh (c : Char) : Bool := c.isAlpha || c = ' '

/-- `[A-Z][a-zA-Z0-9_ ]+$`. -/
def matchUpperWordTail : List Char → Bool
  | c :: rest => c.isUpper && !rest.isEmpty && rest.all isWordSpCh
  | [] => false

/-- `\s+[A-Z][a-zA-Z0-9_ ]+$`. -/
def matchWsUpperWordTail (l : List Char) : Bool :=
  !(l.takeWhile pyIsSpace).isEmpty && matchUpperWordTail (l.dropWhile pyIsSpace)

/-- `^\d+\.\s+[A-Z][a-zA-Z0-9_ ]+$`  (level H1 numbered heading). -/
def matchNumberedH1 (l : List Char) : Bool :=
  !(l.takeWhile Char.isDigit).isEmpty &&
    match l.dropWhile Char.isDigit with
    | '.' :: r => matchWsUpperWordTail r
    | _ => false

/-- `^\d+\.\d+\s+[A-Z][a-zA-Z0-9_ ]+$`  (level H2 numbered heading). -/
def matchNumberedH2 (l : List Char) : Bool :=
  !(l.takeWhile Char.isDigit).isEmpty &&
    match l.dropWhile Char.isDigit with
    | '.' :: r =>
      !(r.takeWhile Char.isDigit).isEmpty &&
        matchWsUpperWordTail (r.dropWhile Char.isDigit)
    | _ => false

/-- `^\d+\.\d+\.\d+\s+[A-Z][a-zA-Z0-9_ ]+$`  (level H3 numbered heading). -/
def matchNumberedH3 (l : List Char) : Bool :=
  !(l.takeWhile Char.isDigit).isEmpty &&
    match l.dropWhile Char.isDigit with
    | '.' :: r =>
      !(r.takeWhile Char.isDigit).isEmpty &&
        match r.dropWhile Char.isDigit with
        | '.' :: r2 =>
          !(r2.takeWhile Char.isDigit).isEmpty &&
            matchWsUpperWordTail (r2.dropWhile Char.isDigit)
        | _ => false
    | _ => false

/-- `\s+[A-Z][a-zA-Z ]+$`. -/
def matchWsUpperAlphaTail (l : List Char) : Bool :=
  !(l.takeWhile pyIsSpace).isEmpty &&
    match l.dropWhile pyIsSpace with
    | c :: rest => c.isUpper && !rest.isEmpty && rest.all isAlphaSpCh
    | [] => false

/-- `[:.]?` — consume one optional colon or dot. -/
def dropOptColonDot : List Char → List Char
  | ':' :: t => t
  | '.' :: t => t
  | l => l

/-- `\s+\d+[:.]?\s+[A-Z][a-zA-Z ]+$`, the tail of the Chapter/Section/Part
pattern. -/
def matchChapterTail (l : List Char) : Bool :=
  !(l.takeWhile pyIsSpace).isEmpty &&
    (let r := l.dropWhile pyIsSpace
     !(r.takeWhile Char.isDigit).isEmpty &&
       matchWsUpperAlphaTail (dropOptColonDot (r.dropWhile Char.isDigit)))

/-- `lit` as a literal prefix, continuing with `k`. -/
def tryLit (lit : String) (l : List Char) (k : List Char → Bool) : Bool :=
  isPref lit.data l && k (l.drop lit.data.length)

/-- `^(Chapter|Section|Part)\s+\d+[:.]?\s+[A-Z][a-zA-Z ]+$`. -/
def matchChapterH1 (l : List Char) : Bool :=
  tryLit "Chapter" l matchChapterTail || tryLit "Section" l matchChapterTail ||
    tryLit "Part" l matchChapterTail

/-- `\s+[A-Z]?\d*[:.]?\s+[A-Z][a-zA-Z ]+$`, the tail of the Appendix/Annex
pattern. -/
def matchAppendixTail (l : List Char) : Bool :=
  !(l.takeWhile pyIsSpace).isEmpty &&
    (let r := l.dropWhile pyIsSpace
     let r1 := match r with
       | c :: t => if c.isUpper then t else c :: t
       | [] => []
     matchWsUpperAlphaTail (dropOptColonDot (r1.dropWhile Char.isDigit)))

/-- `^(Appendix|Annex)\s+[A-Z]?\d*[:.]?\s+[A-Z][a-zA-Z ]+$`. -/
def matchAppendixH1 (l : List Char) : Bool :=
  tryLit "Appendix" l matchAppendixTail || tryLit "Annex" l matchAppendixTail

/-- `^(Table of Contents|References|Bibliography|Index)$`. -/
def matchTocRefsH1 (s : String) : Bool :=
  s = "Table of Contents" || s = "References" || s = "Bibliography" || s = "Index"

/-- `HeadingDetector._analyze_patterns`: first matching template of
`heading_patterns` wins, in source order. -/
def analyze_patterns (s : String) : Option String :=
  if matchNumberedH1 s.data then some "H1"
  else if matchNumberedH2 s.data then some "H2"
  else if matchNumberedH3 s.data then some "H3"
  else if matchChapterH1 s.data then some "H1"
  else if matchAppendixH1 s.data then some "H1"
  else if matchTocRefsH1 s then some "H1"
  else none

/-! ## HeadingDetector: rejection gate and keyword detectors -/

/-- `HeadingDetector.non_heading_indicators` (a Python set; only membership is
ever used, so the order below is irrelevant). -/
def non_heading_indicators : List String :=
  ["form", "application", "date", "name", "address", "phone", "email",
   "signature", "declaration", "particulars", "required", "closed",
   "parents", "guardians", "waiver", "page", "continued", "note:"]

/-- `^\d+\.?\s*(name|date|designation|whether|amount|address)` over the
lowercased text. -/
def matchFormField (l : List Char) : Bool :=
  !(l.takeWhile Char.isDigit).isEmpty &&
    (let r := l.dropWhile Char.isDigit
     let r1 := match r with
       | '.' :: t => t
       | t => t
     let r2 := r1.dropWhile pyIsSpace
     ["name", "date", "designation", "whether", "amount", "address"].any
       (fun w => isPref w.data r2))

/-- `\s*\d+` as a prefix. -/
def matchWsDigits (l : List Char) : Bool :=
  !((l.dropWhile pyIsSpace).takeWhile Char.isDigit).isEmpty

/-- `^(page|pp?\.?)\s*\d+` over the lowercased text. -/
def matchPageRef (l : List Char) : Bool :=
  (isPref "page".data l && matchWsDigits (l.drop 4)) ||
    (match l with
     | 'p' :: t =>
       let t1 := match t with
         | 'p' :: u => u
         | u => u
       let t2 := match t1 with
         | '.' :: u => u
         | u => u
       matchWsDigits t2
     | _ => false)

/-- `HeadingDetector._contains_non_heading_indicators`. -/
def contains_non_heading_indicators (text : String) : Bool :=
  let tl := lowerL text.data
  matchFormField tl ||
    non_heading_indicators.any (fun ind => containsSub ind.data tl) ||
    text.data.any (fun c => c = '@') ||
    containsSub "www.".data tl || containsSub ".com".data tl ||
    matchPageRef tl

/-- `HeadingDetector._looks_like_proper_heading`. -/
def looks_like_proper_heading (s : String) : Bool :=
  (pyIsTitleStr s || (pyIsUpperStr s && decide (s.data.length < 30))) &&
    !(s.data.any (fun c => c = ';' || c = ',')) &&
    !(match s.data.getLast? with
      | some c => c = '.' || c = ':' || c = '-' || c = '_'
      | none => false)

/-- `HeadingDetector.important_heading_words` (a Python set; only membership is
used). -/
def important_heading_words : List String :=
  ["introduction", "background", "methodology", "results", "discussion",
   "conclusion", "recommendations", "abstract", "executive summary",
   "literature review", "findings", "limitations", "future work"]

/-- `HeadingDetector._contains_important_heading_word`. -/
def contains_important_heading_word (s : String) : Bool :=
  List.any important_heading_words
    (fun w => containsSub w.data (lowerL s.data))

/-- Search for `\.{3,}\s*\d+$` (first entry of `toc_patterns`): the string ends
in at least three leader dots, optional whitespace and a page number. -/
def matchLeaderDotsEnd (l : List Char) : Bool :=
  let r := l.reverse
  !(r.takeWhile Char.isDigit).isEmpty &&
    decide (3 ≤ (((r.dropWhile Char.isDigit).dropWhile pyIsSpace).takeWhile
      (fun c => c = '.')).length)

/-- Search for `^\d+\s+[A-Z]` (second entry of `toc_patterns`). -/
def matchNumSpUpper (l : List Char) : Bool :=
  !(l.takeWhile Char.isDigit).isEmpty &&
    (let r := l.dropWhile Char.isDigit
     !(r.takeWhile pyIsSpace).isEmpty &&
       match r.dropWhile pyIsSpace with
       | c :: _ => c.isUpper
       | [] => false)

/-- Search for `^[A-Z]\s+\d+$` (third entry of `toc_patterns`). -/
def matchUpperSpNumEnd : List Char → Bool
  | c :: r =>
    c.isUpper && !(r.takeWhile pyIsSpace).isEmpty &&
      (let r1 := r.dropWhile pyIsSpace
       !r1.isEmpty && r1.all Char.isDigit)
  | [] => false

/-- `HeadingDetector._is_toc_entry`. -/
def is_toc_entry (s : String) : Bool :=
  matchLeaderDotsEnd s.data || matchNumSpUpper s.data || matchUpperSpNumEnd s.data

/-- One non-overlapping `finditer` match of `\.{3,}\s*\d+` at the current
position: returns the consumed length. -/
def leaderRefLen (l : List Char) : Option ℕ :=
  let dots := l.takeWhile (fun c => c = '.')
  let r := l.dropWhile (fun c => c = '.')
  let ws := r.takeWhile pyIsSpace
  let digs := (r.dropWhile pyIsSpace).takeWhile Char.isDigit
  if decide (3 ≤ dots.length) && !digs.isEmpty then
    some (dots.length + ws.length + digs.length)
  else none

/-- `sum(1 for _ in re.finditer(r'\.{3,}\s*\d+', text))`: fuel-indexed scan;
the fuel `l.length` suffices because every step consumes at least one
character. -/
def countLeaderRefsAux : ℕ → List Char → ℕ
  | 0, _ => 0
  | _, [] => 0
  | fuel + 1, c :: t =>
    match leaderRefLen (c :: t) with
    | some k => 1 + countLeaderRefsAux fuel ((c :: t).drop k)
    | none => countLeaderRefsAux fuel t

def countLeaderRefs (l : List Char) : ℕ := countLeaderRefsAux l.length l

/-- `HeadingDetector._is_toc_page`. -/
def is_toc_page (raw : String) : Bool :=
  if raw.data.isEmpty then false
  else
    let tl := lowerL raw.data
    (containsSub "table of contents".data tl || containsSub "contents".data tl) ||
      decide (3 < countLeaderRefs tl)

/-! ## HeadingDetector: data model and `detect_headings` -/

/-- One reconstructed line with aggregate formatting, as built by
`_extract_text_blocks` (the glyph geometry itself is the external
collaborator).  Font sizes are modelled at integer granularity. -/
structure TextBlock where
  text : String
  font_size : ℤ
  is_bold : Bool
  y_position : ℤ
  deriving DecidableEq, Repr

/-- One heading dict as constructed in `detect_headings`: keys `level`,
`text`, `page`, `position`. -/
structure Heading where
  level : String
  text : String
  page : ℕ
  position : ℕ
  deriving DecidableEq, Repr

/-- `[block['font_size'] for block in text_blocks if block.get('font_size')]`:
the key is always present, and Python truthiness drops a zero size. -/
def fontSizesOf (blocks : List TextBlock) : List ℤ :=
  blocks.filterMap (fun b => if b.font_size = 0 then none else some b.font_size)

/-- Python `max` of a list (only applied to nonempty lists). -/
def maxList : List ℤ → ℤ
  | [] => 0
  | h :: t => t.foldl max h

/-- Python `enumerate(l, n)`. -/
def enumFrom {α : Type _} : ℕ → List α → List (ℕ × α)
  | _, [] => []
  | n, a :: t => (n, a) :: enumFrom (n + 1) t

/-- The body of the `for i, block in enumerate(text_blocks)` loop of
`HeadingDetector.detect_headings`.  `sumSz`/`cnt` carry the page's font-size
sum and count, so that the code's real-valued comparisons
`font_size >= 1.5 * avg`, `font_size > 1.2 * avg` and
`font_size >= 0.9 * max_font_size` are embedded exactly by cross-multiplying
with the positive denominators (`cnt > 0` whenever this runs). -/
def classifyBlock (sumSz : ℤ) (cnt : ℕ) (maxSz : ℤ) (page i : ℕ)
    (b : TextBlock) : Option Heading :=
  let text := pyStrip b.text
  if text.data.isEmpty || decide (text.data.length < 4) ||
      decide (120 < text.data.length) then none
  else if contains_non_heading_indicators text then none
  else
    match analyze_patterns text with
    | some lvl => some ⟨lvl, clean_heading_text text, page, i⟩
    | none =>
      let fs := b.font_size
      if decide (3 * sumSz ≤ 2 * (cnt : ℤ) * fs) && b.is_bold &&
          looks_like_proper_heading text then
        some ⟨if decide (9 * maxSz ≤ 10 * fs) then "H1" else "H2",
          clean_heading_text text, page, i⟩
      else if contains_important_heading_word text && !is_toc_entry text &&
          decide (6 * sumSz < 5 * (cnt : ℤ) * fs) then
        some ⟨"H2", clean_heading_text text, page, i⟩
      else none

/-- `HeadingDetector.detect_headings` (the local `font_sizes` list is written
out in full). -/
def detect_headings (text_blocks : List TextBlock) (page_num : ℕ) :
    List Heading :=
  if text_blocks.isEmpty then []
  else if (fontSizesOf text_blocks).isEmpty then []
  else
    (enumFrom 0 text_blocks).filterMap
      (fun p => classifyBlock (fontSizesOf text_blocks).sum
        (fontSizesOf text_blocks).length (maxList (fontSizesOf text_blocks))
        page_num p.1 p.2)

/-! ## Substring lemmas -/

theorem isPref_iff (n : List Char) : ∀ h, isPref n h = true ↔ ∃ t, h = n ++ t := by
  induction n with
  | nil => intro h; simp [isPref]
  | cons c n ih =>
    intro h
    cases h with
    | nil =>
      simp [isPref]
    | cons d hs =>
      simp only [isPref, Bool.and_eq_true, decide_eq_true_eq, ih,
        List.cons_append, List.cons.injEq]
      constructor
      · rintro ⟨rfl, t, rfl⟩
        exact ⟨t, rfl, rfl⟩
      · rintro ⟨t, rfl, rfl⟩
        exact ⟨rfl, t, rfl⟩

theorem containsSub_iff (n : List Char) :
    ∀ h, containsSub n h = true ↔ ∃ s t, h = s ++ n ++ t := by
  intro h
  induction h with
  | nil =>
    simp only [containsSub, isPref_iff]
    constructor
    · rintro ⟨t, ht⟩
      exact ⟨[], t, by simpa using ht⟩
    · rintro ⟨s, t, hst⟩
      rcases List.append_eq_nil.mp hst.symm with ⟨h1, h2⟩
      rcases List.append_eq_nil.mp h1 with ⟨rfl, rfl⟩
      exact ⟨[], by simp⟩
  | cons d hs ih =>
    simp only [containsSub, Bool.or_eq_true, isPref_iff, ih]
    constructor
    · rintro (⟨t, ht⟩ | ⟨s, t, rfl⟩)
      · exact ⟨[], t, by simpa using ht⟩
      · exact ⟨d :: s, t, by simp⟩
    · rintro ⟨s, t, hst⟩
      cases s with
      | nil =>
        left
        exact ⟨t, by simpa using hst⟩
      | cons a s =>
        right
        simp only [List.cons_append, List.cons.injEq] at hst
        exact ⟨s, t, hst.2⟩

theorem containsSub_parts (n s t : List Char) :
    containsSub n (s ++ n ++ t) = true :=
  (containsSub_iff n _).mpr ⟨s, t, rfl⟩

/-- A whitespace-free nonempty needle survives `dropWhile pyIsSpace` on any
string containing it. -/
theorem containsSub_dropWhile_parts (p : Char → Bool) (n : List Char)
    (hne : n ≠ []) (hn : ∀ c ∈ n, p c = false) (s t : List Char) :
    containsSub n ((s ++ n ++ t).dropWhile p) = true := by
  induction s with
  | nil =>
    cases n with
    | nil => exact absurd rfl hne
    | cons c n' =>
      have hpc : p c = false := hn c (by simp)
      simp only [List.nil_append, List.cons_append, List.dropWhile_cons, hpc,
        Bool.false_eq_true, if_false]
      exact containsSub_parts (c :: n') [] t
  | cons a s ih =>
    have hrw : (a :: s) ++ n ++ t = a :: (s ++ n ++ t) := by simp
    rw [hrw, List.dropWhile_cons]
    by_cases hpa : p a = true
    · simp only [hpa, if_true]
      exact ih
    · simp only [hpa, if_false]
      have : a :: (s ++ n ++ t) = (a :: s) ++ n ++ t := by simp
      rw [this]
      exact containsSub_parts n (a :: s) t

theorem containsSub_dropWhile (p : Char → Bool) {n : List Char}
    (hne : n ≠ []) (hn : ∀ c ∈ n, p c = false) {h : List Char}
    (hc : containsSub n h = true) :
    containsSub n (h.dropWhile p) = true := by
  obtain ⟨s, t, rfl⟩ := (containsSub_iff n h).mp hc
  exact containsSub_dropWhile_parts p n hne hn s t

theorem containsSub_rev_iff (n h : List Char) :
    containsSub n.reverse h.reverse = true ↔ containsSub n h = true := by
  simp only [containsSub_iff]
  constructor
  · rintro ⟨s, t, hst⟩
    refine ⟨t.reverse, s.reverse, ?_⟩
    have := congrArg List.reverse hst
    simpa [List.append_assoc] using this
  · rintro ⟨s, t, rfl⟩
    exact ⟨t.reverse, s.reverse, by simp [List.append_assoc]⟩

theorem containsSub_rdropWhile (p : Char → Bool) {n : List Char}
    (hne : n ≠ []) (hn : ∀ c ∈ n, p c = false) {h : List Char}
    (hc : containsSub n h = true) :
    containsSub n (h.rdropWhile p) = true := by
  rw [List.rdropWhile]
  rw [← containsSub_rev_iff, List.reverse_reverse]
  refine containsSub_dropWhile p ?_ ?_ ((containsSub_rev_iff n h).mpr hc)
  · intro hcontra
    exact hne (by simpa using congrArg List.reverse hcontra)
  · intro c hcmem
    exact hn c (List.mem_reverse.mp hcmem)

/-! ## `lower` commutes with `strip` -/

theorem lowerL_dropWhile (l : List Char) :
    lowerL (l.dropWhile pyIsSpace) = (lowerL l).dropWhile pyIsSpace := by
  unfold lowerL
  induction l with
  | nil => rfl
  | cons c t ih =>
    simp only [List.map_cons, List.dropWhile_cons, pyIsSpace_pyLower]
    by_cases hw : pyIsSpace c = true
    · simp [hw, ih]
    · simp [hw]

theorem lowerL_rdropWhile (l : List Char) :
    lowerL (l.rdropWhile pyIsSpace) = (lowerL l).rdropWhile pyIsSpace := by
  rw [List.rdropWhile, List.rdropWhile]
  have h1 : lowerL ((List.dropWhile pyIsSpace l.reverse).reverse)
      = (lowerL (List.dropWhile pyIsSpace l.reverse)).reverse := by
    unfold lowerL
    exact List.map_reverse ..
  have h2 : lowerL l.reverse = (lowerL l).reverse := by
    unfold lowerL
    exact List.map_reverse ..
  rw [h1, lowerL_dropWhile, h2]

theorem lowerL_stripL (l : List Char) :
    lowerL (stripL l) = stripL (lowerL l) := by
  unfold stripL
  rw [lowerL_rdropWhile, lowerL_dropWhile]

/-! ## Claims C6, C7, C8, C10 -/

/-- **C6.** For every text block whose text is exactly `"1. Introduction"`,
regardless of its font size or boldness (and of the page's font statistics),
the heading classifier emits a heading with level `H1` whose cleaned text is
`"Introduction"`: the leading bare number and dot are stripped. -/
theorem c6_numbered_intro_h1 (sumSz : ℤ) (cnt : ℕ) (maxSz : ℤ) (page i : ℕ)
    (b : TextBlock) (hb : b.text = "1. Introduction") :
    classifyBlock sumSz cnt maxSz page i b =
      some ⟨"H1", "Introduction", page, i⟩ := by
  cases b with
  | mk t fs bold y =>
    have ht : t = "1. Introduction" := hb
    subst ht
    rfl

/-- Witness for C6 at a concrete block with zero font size and no boldness. -/
theorem c6_numbered_intro_h1_witness :
    (⟨"1. Introduction", 0, false, 0⟩ : TextBlock).text = "1. Introduction" ∧
      classifyBlock 7 2 9 4 1 ⟨"1. Introduction", 0, false, 0⟩ =
        some ⟨"H1", "Introduction", 4, 1⟩ :=
  ⟨rfl, c6_numbered_intro_h1 7 2 9 4 1 ⟨"1. Introduction", 0, false, 0⟩ rfl⟩

/-- **C7.** For every text block whose text is exactly
`"1.2 Background Research"`, the heading classifier emits a heading with level
`H2` whose cleaned text is `"1.2 Background Research"`: a leading number in
the `N.N` numbered form is preserved by the cleaning step. -/
theorem c7_numbered_sub_h2 (sumSz : ℤ) (cnt : ℕ) (maxSz : ℤ) (page i : ℕ)
    (b : TextBlock) (hb : b.text = "1.2 Background Research") :
    classifyBlock sumSz cnt maxSz page i b =
      some ⟨"H2", "1.2 Background Research", page, i⟩ := by
  cases b with
  | mk t fs bold y =>
    have ht : t = "1.2 Background Research" := hb
    subst ht
    rfl

/-- Witness for C7 at a concrete block. -/
theorem c7_numbered_sub_h2_witness :
    (⟨"1.2 Background Research", 3, true, 5⟩ : TextBlock).text =
        "1.2 Background Research" ∧
      classifyBlock 11 4 20 7 2 ⟨"1.2 Background Research", 3, true, 5⟩ =
        some ⟨"H2", "1.2 Background Research", 7, 2⟩ :=
  ⟨rfl, c7_numbered_sub_h2 11 4 20 7 2 ⟨"1.2 Background Research", 3, true, 5⟩ rfl⟩

/-- **C8 (counterexample).** `_clean_heading_text` is *not* idempotent: on
`"Intro 3 4"` one application strips only the trailing `" 4"` (giving
`"Intro 3"`), and a second application strips the now-trailing `" 3"`. -/
theorem c8_clean_not_idempotent :
    clean_heading_text (clean_heading_text "Intro 3 4") ≠
      clean_heading_text "Intro 3 4" := by
  decide

/-- **C8 (amended).** The heading-text normalization used for deduplication,
`PDFProcessor._normalize_heading_text` (lowercase, keep only alphanumerics),
is idempotent; the cleaning function `_clean_heading_text` is not (see the
counterexample). -/
theorem c8_normalize_idempotent (t : String) :
    normalize_heading_text (normalize_heading_text t) =
      normalize_heading_text t := by
  unfold normalize_heading_text
  have hmap : lowerL ((lowerL t.data).filter Char.isAlphanum)
      = (lowerL t.data).filter Char.isAlphanum := by
    unfold lowerL
    have h1 : ∀ c ∈ (List.map pyLower t.data).filter Char.isAlphanum,
        pyLower c = c := by
      intro c hc
      have hcmem : c ∈ List.map pyLower t.data := List.mem_of_mem_filter hc
      obtain ⟨x, _, rfl⟩ := List.mem_map.mp hcmem
      exact pyLower_idem x
    calc ((List.map pyLower t.data).filter Char.isAlphanum).map pyLower
        = ((List.map pyLower t.data).filter Char.isAlphanum).map id :=
          List.map_congr_left h1
      _ = (List.map pyLower t.data).filter Char.isAlphanum := List.map_id _
  rw [show (⟨(lowerL t.data).filter Char.isAlphanum⟩ : String).data
      = (lowerL t.data).filter Char.isAlphanum from rfl, hmap]
  have hfil : ((lowerL t.data).filter Char.isAlphanum).filter Char.isAlphanum
      = (lowerL t.data).filter Char.isAlphanum := by
    rw [List.filter_eq_self]
    intro a ha
    exact List.of_mem_filter ha
  rw [hfil]

/-- **C10.** The non-heading rejection gate is substring-based: a block whose
text contains any entry of `non_heading_indicators` as a case-insensitive
substring anywhere — also inside a longer word — yields no heading, regardless
of font size, boldness, or an otherwise matching lexical pattern. -/
theorem c10_indicator_gate_rejects (sumSz : ℤ) (cnt : ℕ) (maxSz : ℤ)
    (page i : ℕ) (b : TextBlock) (ind : String)
    (hmem : ind ∈ non_heading_indicators)
    (hsub : containsSub ind.data (lowerL b.text.data) = true) :
    classifyBlock sumSz cnt maxSz page i b = none := by
  have hind : ∀ s ∈ non_heading_indicators,
      s.data ≠ [] ∧ ∀ c ∈ s.data, pyIsSpace c = false := by decide
  have hne : ind.data ≠ [] := (hind ind hmem).1
  have hws : ∀ c ∈ ind.data, pyIsSpace c = false := (hind ind hmem).2
  have hstrip : containsSub ind.data (lowerL (stripL b.text.data)) = true := by
    rw [lowerL_stripL]
    unfold stripL
    exact containsSub_rdropWhile pyIsSpace hne hws
      (containsSub_dropWhile pyIsSpace hne hws hsub)
  have hgate : contains_non_heading_indicators (pyStrip b.text) = true := by
    unfold contains_non_heading_indicators
    have hany : non_heading_indicators.any
        (fun s => containsSub s.data (lowerL (pyStrip b.text).data)) = true :=
      List.any_eq_true.mpr ⟨ind, hmem, hstrip⟩
    simp only [hany, Bool.or_true, Bool.true_or]
  simp [classifyBlock, hgate]

/-- Witness for C10: `"Updated Results"` contains `"date"` inside a longer
word and is rejected even though it is bold, huge, and title-cased. -/
theorem c10_indicator_gate_rejects_witness :
    ("date" ∈ non_heading_indicators ∧
      containsSub "date".data
        (lowerL ("Updated Results" : String).data) = true) ∧
      classifyBlock 10 3 12 2 0 ⟨"Updated Results", 99, true, 0⟩ = none :=
  ⟨⟨by decide, by decide⟩,
    c10_indicator_gate_rejects 10 3 12 2 0 ⟨"Updated Results", 99, true, 0⟩
      "date" (by decide) (by decide)⟩

/-! ## Page records and the shared page filter -/

/-- One entry of `pages_data`. -/
structure PageRecord where
  page_number : ℕ
  text_blocks : List TextBlock
  raw_text : String
  deriving DecidableEq, Repr

/-- The external parser's view of one page before filtering: the extracted
plain text, whether `page.chars` is nonempty, and the text blocks that the
(out-of-scope) line-grouping geometry produces from those chars. -/
structure RawPage where
  text : String
  hasChars : Bool
  blocks : List TextBlock
  deriving DecidableEq, Repr

/-- `_extract_pages_data` (the kept-page condition is the same in both
variants): pages are numbered from 1 by `enumerate(pdf.pages, 1)`; a page
with fewer than 20 words of text or no characters is skipped. -/
def extract_pages_data (pages : List RawPage) : List PageRecord :=
  (enumFrom 1 pages).filterMap (fun p =>
    if wordCount p.2.text < 20 then none
    else if !p.2.hasChars then none
    else some ⟨p.1, p.2.blocks, p.2.text⟩)

/-- `junk_indicators` of `PDFProcessor._is_junk_page` (heading_detector.py). -/
def junk_indicators : List String :=
  ["table of contents", "contents", "references", "bibliography",
   "index", "acknowledgements", "revision history"]

/-- `PDFProcessor._is_junk_page` (heading_detector.py): empty text is junk,
otherwise at least two indicator matches. -/
def is_junk_page (raw : String) : Bool :=
  if raw.data.isEmpty then true
  else
    decide (2 ≤ (junk_indicators.filter
      (fun ind => containsSub ind.data (lowerL raw.data))).length)

/-- The terminal `{"title": ..., "outline": ...}` artifact. -/
structure DocumentResult where
  title : String
  outline : List Heading
  deriving DecidableEq, Repr

/-- JSON values, for stating exactly which keys `json.dump` serializes. -/
inductive JsonVal where
  | s (v : String)
  | n (v : ℕ)
  | arr (l : List JsonVal)
  | obj (l : List (String × JsonVal))

/-- One outline entry exactly as the dict is constructed in
`detect_headings` and serialized by `json.dump` in app.py. -/
def headingJson (h : Heading) : List (String × JsonVal) :=
  [("level", .s h.level), ("text", .s h.text), ("page", .n h.page),
   ("position", .n h.position)]

def headingJsonKeys (h : Heading) : List String := (headingJson h).map Prod.fst

/-- The result dict of `extract_outline` as serialized. -/
def resultJson (r : DocumentResult) : List (String × JsonVal) :=
  [("title", .s r.title),
   ("outline", .arr (r.outline.map (fun h => .obj (headingJson h))))]

def resultJsonKeys (r : DocumentResult) : List String :=
  (resultJson r).map Prod.fst

/-- Sorting relation of the title candidate ranking
`key=lambda x: (-x[0], -x[1], -len(x[2]))` (both variants): larger font first,
then bold first, then longer text first. -/
def titleLe (a b : ℤ × Bool × String) : Prop :=
  b.1 < a.1 ∨ (a.1 = b.1 ∧ ((a.2.1 = true ∧ b.2.1 = false) ∨
    (a.2.1 = b.2.1 ∧ b.2.2.data.length ≤ a.2.2.data.length)))

instance : DecidableRel titleLe := fun a b => by
  unfold titleLe
  infer_instance

/-- The open-H1 invariant of an outline: every entry whose level is not `H1`
has an earlier entry with level `H1`. -/
def OpenH1 (L : List Heading) : Prop :=
  ∀ i (hi : i < L.length), (L.get ⟨i, hi⟩).level ≠ "H1" →
    ∃ j, ∃ hj : j < L.length, j < i ∧ (L.get ⟨j, hj⟩).level = "H1"

/-! ## The pdf_processor.py pipeline (the variant `app.py` runs) -/

namespace PP

/-- Sorting relation of
`sorted(all_headings, key=lambda x: (x['page'], x.get('position', 0)))`
(the `position` key is always present). -/
def pagePosLe (a b : Heading) : Prop :=
  a.page < b.page ∨ (a.page = b.page ∧ a.position ≤ b.position)

instance : DecidableRel pagePosLe := fun a b => by
  unfold pagePosLe
  infer_instance

instance : IsTotal Heading pagePosLe where
  total := by
    intro a b
    unfold pagePosLe
    rcases Nat.lt_trichotomy a.page b.page with h | h | h
    · exact Or.inl (Or.inl h)
    · rcases Nat.le_total a.position b.position with hp | hp
      · exact Or.inl (Or.inr ⟨h, hp⟩)
      · exact Or.inr (Or.inr ⟨h.symm, hp⟩)
    · exact Or.inr (Or.inl h)

instance : IsTrans Heading pagePosLe where
  trans := by
    intro a b c hab hbc
    unfold pagePosLe at hab hbc ⊢
    rcases hab with h1 | ⟨h1, h1p⟩
    · rcases hbc with h2 | ⟨h2, _⟩
      · exact Or.inl (h1.trans h2)
      · exact Or.inl (h2 ▸ h1)
    · rcases hbc with h2 | ⟨h2, h2p⟩
      · exact Or.inl (h1 ▸ h2)
      · exact Or.inr ⟨h1.trans h2, h1p.trans h2p⟩

/-- The `seen`-set dedup loop of `_extract_headings` (pdf_processor.py): the
first occurrence of each `(text, page)` key is kept. -/
def dedupByKey : List Heading → List (String × ℕ) → List Heading
  | [], _ => []
  | h :: t, seen =>
    if (h.text, h.page) ∈ seen then dedupByKey t seen
    else h :: dedupByKey t ((h.text, h.page) :: seen)

/-- The per-page collection loop of `_extract_headings` (pdf_processor.py):
TOC pages are skipped (`_is_junk_page` is *not* consulted here), then
one-word and all-digit heading texts are dropped. -/
def detectedPool (pages_data : List PageRecord) : List Heading :=
  pages_data.flatMap (fun pd =>
    if is_toc_page pd.raw_text then []
    else
      (detect_headings pd.text_blocks pd.page_number).filter
        (fun h => decide (1 < wordCount h.text) && !pyIsDigitStr h.text))

/-- `PDFProcessor._extract_headings` (pdf_processor.py): collect, sort by
`(page, position)`, dedup by `(text, page)`. -/
def extract_headings (pages_data : List PageRecord) : List Heading :=
  dedupByKey (List.insertionSort pagePosLe (detectedPool pages_data)) []

/-- `j` clamped to `[1, len-1]` as in `statistics.quantiles`. -/
def clampJ (ld j : ℕ) : ℕ :=
  if j < 1 then 1 else if ld - 1 < j then ld - 1 else j

/-- 100 times the value `quantiles(font_sizes, n=100)[74]` computed by the
exclusive method of `statistics.quantiles` on the sorted data; the scaling by
the denominator 100 keeps the arithmetic in ℤ. -/
def quantile75Num (data : List ℤ) : ℤ :=
  let sorted := List.insertionSort (fun a b : ℤ => a ≤ b) data
  let ld := data.length
  let j := clampJ ld ((75 * (ld + 1)) / 100)
  let delta := (75 * (ld + 1)) % 100
  sorted.getD (j - 1) 0 * ((100 - delta : ℕ) : ℤ) +
    sorted.getD j 0 * (delta : ℤ)

/-- `statistics.quantiles(data, n=100)` raises `StatisticsError` on fewer than
two data points; otherwise the 75th-percentile entry is available. -/
def quantile75E (data : List ℤ) : Except String ℤ :=
  if data.length < 2 then
    .error "StatisticsError: must have at least two data points"
  else .ok (quantile75Num data)

/-- Search for `page\s*\d+` anywhere in the (lowercased) candidate text. -/
def matchPageNumAnywhere : List Char → Bool
  | [] => false
  | c :: t =>
    (isPref "page".data (c :: t) && matchWsDigits ((c :: t).drop 4)) ||
      matchPageNumAnywhere t

/-- `re.search(r'page\s*\d+|confidential|copyright', text.lower())`. -/
def titleExclude (l : List Char) : Bool :=
  matchPageNumAnywhere l || containsSub "confidential".data l ||
    containsSub "copyright".data l

/-- `first_page['raw_text'].split('\n')[0].strip() or "Untitled Document"`. -/
def firstLineOr (raw : String) : String :=
  let fl := stripL (raw.data.takeWhile (fun c => c != '\n'))
  if fl.isEmpty then "Untitled Document" else ⟨fl⟩

/-- `PDFProcessor._extract_title` (pdf_processor.py).  Fails exactly when
`statistics.quantiles` raises, i.e. when the first kept page contributes
exactly one leading text block. -/
def extract_title_e (pages_data : List PageRecord) : Except String String :=
  match pages_data with
  | [] => .ok "Untitled Document"
  | fp :: _ =>
    if (fp.text_blocks.take 5).isEmpty then .ok "Untitled Document"
    else
      match quantile75E ((fp.text_blocks.take 5).map (fun b => b.font_size)) with
      | .error e => .error e
      | .ok thrNum =>
        match List.insertionSort titleLe ((fp.text_blocks.take 5).filterMap
            (fun b =>
              if decide (5 < b.text.data.length) &&
                  decide (thrNum ≤ 100 * b.font_size) &&
                  !titleExclude (lowerL b.text.data) then
                some (b.font_size, b.is_bold, b.text)
              else none)) with
        | [] => .ok (firstLineOr fp.raw_text)
        | c :: _ => .ok c.2.2

/-- The body of `PDFProcessor.extract_outline` (pdf_processor.py) after page
extraction, with the `try` block as `Except`: the title is computed before the
headings, so a title failure aborts heading extraction too. -/
def pipelineE (pages : List RawPage) : Except String DocumentResult :=
  match extract_title_e (extract_pages_data pages) with
  | .error e => .error e
  | .ok title => .ok ⟨title, extract_headings (extract_pages_data pages)⟩

/-- `PDFProcessor.extract_outline` (pdf_processor.py): any unrecovered
exception is converted to `{"title": "", "outline": []}`. -/
def extract_outline (pages : List RawPage) : DocumentResult :=
  match pipelineE pages with
  | .ok r => r
  | .error _ => ⟨"", []⟩

end PP

/-! ## The heading_detector.py pipeline (the variant with `_filter_headings`) -/

namespace HD

/-- The dedup-and-filter loop of `_extract_headings` (heading_detector.py):
the dedup key is the lowercased cleaned text only (page-independent);
empty or one-word texts are skipped without being added to `seen`. -/
def dedupLoop : List Heading → List String → List Heading
  | [], _ => []
  | h :: t, seen =>
    if !h.text.data.isEmpty && decide (2 ≤ wordCount h.text) &&
        !(seen.contains (pyLowerS h.text)) then
      h :: dedupLoop t (pyLowerS h.text :: seen)
    else dedupLoop t seen

/-- `PDFProcessor._extract_headings` (heading_detector.py): junk pages are
skipped (`_is_toc_page` is *not* consulted here). -/
def extract_headings (pages_data : List PageRecord) : List Heading :=
  dedupLoop
    (pages_data.flatMap (fun pd =>
      if is_junk_page pd.raw_text then []
      else detect_headings pd.text_blocks pd.page_number)) []

/-- The dedup-by-normalized-text loop of `_filter_headings`. -/
def dedupByNorm : List Heading → List String → List Heading
  | [], _ => []
  | h :: t, seen =>
    if seen.contains (normalize_heading_text h.text) then dedupByNorm t seen
    else h :: dedupByNorm t (normalize_heading_text h.text :: seen)

/-- The hierarchy-repair walk of `_filter_headings`: an `H1` always passes and
becomes the open parent; any other level passes only while `current_h1` is
truthy (a nonempty parent text). -/
def openH1Walk : List Heading → Option String → List Heading
  | [], _ => []
  | h :: t, cur =>
    if h.level = "H1" then h :: openH1Walk t (some h.text)
    else if (match cur with
             | some s => !s.data.isEmpty
             | none => false) then h :: openH1Walk t cur
    else openH1Walk t cur

/-- `PDFProcessor._filter_headings` (heading_detector.py): dedup by normalized
text, drop short/generic texts, then repair the hierarchy. -/
def filter_headings (headings : List Heading) : List Heading :=
  if headings.isEmpty then []
  else
    let unique := dedupByNorm headings []
    let filtered := unique.filter (fun h =>
      !(decide (wordCount h.text < 2) || decide (h.text.data.length < 5) ||
        (pyLowerS h.text = "overview" || pyLowerS h.text = "introduction" ||
          pyLowerS h.text = "conclusion")))
    openH1Walk filtered none

/-- `PDFProcessor._looks_like_header_footer` (heading_detector.py). -/
def looks_like_header_footer (s : String) : Bool :=
  ["page", "confidential", "copyright", "Â©", "proprietary", "draft",
   "version", "date:"].any (fun ind => containsSub ind.data (lowerL s.data))

/-- `PDFProcessor._looks_like_form_content` (heading_detector.py). -/
def looks_like_form_content (s : String) : Bool :=
  matchFormField (lowerL s.data) ||
    ["rsvp:", "signature", "form", "application", "required"].any
      (fun ind => containsSub ind.data (lowerL s.data))

/-- `PDFProcessor._extract_title` (heading_detector.py): ranked candidates
among the first ten blocks, else the empty string. -/
def extract_title (pages_data : List PageRecord) : String :=
  match pages_data with
  | [] => ""
  | fp :: _ =>
    let candidates := (fp.text_blocks.take 10).filterMap (fun b =>
      let t := pyStrip b.text
      if decide (5 < t.data.length) && !looks_like_header_footer t &&
          !looks_like_form_content t then
        some (b.font_size, b.is_bold, t)
      else none)
    match List.insertionSort titleLe candidates with
    | [] => ""
    | c :: _ => c.2.2

/-- `PDFProcessor.extract_outline` (heading_detector.py); nothing in this
variant's embedded fragment can raise. -/
def extract_outline (pages : List RawPage) : DocumentResult :=
  let pages_data := extract_pages_data pages
  ⟨extract_title pages_data, filter_headings (extract_headings pages_data)⟩

end HD

/-! ## Lemmas about the pdf_processor.py dedup and collection loops -/

theorem dedupByKey_subset :
    ∀ (l : List Heading) (seen : List (String × ℕ)) {g : Heading},
      g ∈ PP.dedupByKey l seen → g ∈ l := by
  intro l
  induction l with
  | nil => intro seen g hg; simp [PP.dedupByKey] at hg
  | cons h t ih =>
    intro seen g hg
    unfold PP.dedupByKey at hg
    by_cases hk : (h.text, h.page) ∈ seen
    · rw [if_pos hk] at hg
      exact List.mem_cons_of_mem _ (ih seen hg)
    · rw [if_neg hk] at hg
      rcases List.mem_cons.mp hg with rfl | hg2
      · exact List.mem_cons_self _ _
      · exact List.mem_cons_of_mem _ (ih _ hg2)

theorem dedupByKey_key_not_seen :
    ∀ (l : List Heading) (seen : List (String × ℕ)) {g : Heading},
      g ∈ PP.dedupByKey l seen → (g.text, g.page) ∉ seen := by
  intro l
  induction l with
  | nil => intro seen g hg; simp [PP.dedupByKey] at hg
  | cons h t ih =>
    intro seen g hg
    unfold PP.dedupByKey at hg
    by_cases hk : (h.text, h.page) ∈ seen
    · rw [if_pos hk] at hg
      exact ih seen hg
    · rw [if_neg hk] at hg
      rcases List.mem_cons.mp hg with rfl | hg2
      · exact hk
      · intro hcontra
        exact ih _ hg2 (List.mem_cons_of_mem _ hcontra)

theorem dedupByKey_complete :
    ∀ (l : List Heading) (seen : List (String × ℕ)) {x : Heading},
      x ∈ l → (x.text, x.page) ∉ seen →
      ∃ g ∈ PP.dedupByKey l seen, g.text = x.text ∧ g.page = x.page := by
  intro l
  induction l with
  | nil => intro seen x hx; simp at hx
  | cons h t ih =>
    intro seen x hx hns
    unfold PP.dedupByKey
    by_cases hk : (h.text, h.page) ∈ seen
    · rw [if_pos hk]
      rcases List.mem_cons.mp hx with rfl | hx2
      · exact absurd hk hns
      · exact ih seen hx2 hns
    · rw [if_neg hk]
      rcases List.mem_cons.mp hx with rfl | hx2
      · exact ⟨_, List.mem_cons_self _ _, rfl, rfl⟩
      · by_cases hkey : (x.text, x.page) = (h.text, h.page)
        · refine ⟨h, List.mem_cons_self _ _, ?_, ?_⟩
          · exact (congrArg Prod.fst hkey).symm
          · exact (congrArg Prod.snd hkey).symm
        · have hns2 : (x.text, x.page) ∉ (h.text, h.page) :: seen := by
            intro hcontra
            rcases List.mem_cons.mp hcontra with heq | hmem
            · exact hkey heq
            · exact hns hmem
          obtain ⟨g, hg, hgt, hgp⟩ := ih _ hx2 hns2
          exact ⟨g, List.mem_cons_of_mem h hg, hgt, hgp⟩

theorem dedupByKey_pairwise :
    ∀ (l : List Heading) (seen : List (String × ℕ)),
      (PP.dedupByKey l seen).Pairwise
        (fun g g2 => ¬(g.text = g2.text ∧ g.page = g2.page)) := by
  intro l
  induction l with
  | nil => intro seen; simp [PP.dedupByKey]
  | cons h t ih =>
    intro seen
    unfold PP.dedupByKey
    by_cases hk : (h.text, h.page) ∈ seen
    · rw [if_pos hk]
      exact ih seen
    · rw [if_neg hk]
      refine List.Pairwise.cons ?_ (ih _)
      intro g hg ⟨ht, hp⟩
      have := dedupByKey_key_not_seen t ((h.text, h.page) :: seen) hg
      exact this (by rw [← ht, ← hp]; exact List.mem_cons_self _ _)

theorem dedupByKey_first {r : Heading → Heading → Prop} :
    ∀ (l : List Heading) (seen : List (String × ℕ)), l.Pairwise r →
      ∀ {g : Heading}, g ∈ PP.dedupByKey l seen →
      ∀ x ∈ l, x.text = g.text → x.page = g.page → g = x ∨ r g x := by
  intro l
  induction l with
  | nil => intro seen _ g hg; simp [PP.dedupByKey] at hg
  | cons h t ih =>
    intro seen hp g hg x hx hxt hxp
    have hph : ∀ y ∈ t, r h y := (List.pairwise_cons.mp hp).1
    have hpt : t.Pairwise r := (List.pairwise_cons.mp hp).2
    unfold PP.dedupByKey at hg
    by_cases hk : (h.text, h.page) ∈ seen
    · rw [if_pos hk] at hg
      rcases List.mem_cons.mp hx with rfl | hx2
      · have hgk := dedupByKey_key_not_seen t seen hg
        exact absurd (by rw [← hxt, ← hxp]; exact hk) hgk
      · exact ih seen hpt hg x hx2 hxt hxp
    · rw [if_neg hk] at hg
      rcases List.mem_cons.mp hg with rfl | hg2
      · rcases List.mem_cons.mp hx with rfl | hx2
        · exact Or.inl rfl
        · exact Or.inr (hph x hx2)
      · have hgk := dedupByKey_key_not_seen t ((h.text, h.page) :: seen) hg2
        rcases List.mem_cons.mp hx with rfl | hx2
        · exact absurd (by rw [← hxt, ← hxp]; exact List.mem_cons_self _ _) hgk
        · exact ih _ hpt hg2 x hx2 hxt hxp

/-! ## Provenance lemmas for the detector and the pipelines -/

theorem analyze_patterns_mem {s : String} {lvl : String}
    (ha : analyze_patterns s = some lvl) :
    lvl ∈ (["H1", "H2", "H3"] : List String) := by
  unfold analyze_patterns at ha
  split_ifs at ha <;> simp_all

theorem classifyBlock_some {sumSz : ℤ} {cnt : ℕ} {maxSz : ℤ} {page i : ℕ}
    {b : TextBlock} {h : Heading}
    (hc : classifyBlock sumSz cnt maxSz page i b = some h) :
    h.page = page ∧ h.position = i ∧
      h.level ∈ (["H1", "H2", "H3"] : List String) := by
  simp only [classifyBlock] at hc
  split at hc
  · exact absurd hc (by simp)
  · split at hc
    · exact absurd hc (by simp)
    · split at hc
      · rename_i lvl heq
        rcases Option.some.injEq .. |>.mp hc.symm with rfl
        exact ⟨rfl, rfl, analyze_patterns_mem heq⟩
      · split at hc
        · rcases Option.some.injEq .. |>.mp hc.symm with rfl
          refine ⟨rfl, rfl, ?_⟩
          split <;> simp
        · split at hc
          · rcases Option.some.injEq .. |>.mp hc.symm with rfl
            exact ⟨rfl, rfl, by simp⟩
          · exact absurd hc (by simp)

theorem detect_headings_mem {blocks : List TextBlock} {page : ℕ} {h : Heading}
    (hm : h ∈ detect_headings blocks page) :
    h.page = page ∧ h.level ∈ (["H1", "H2", "H3"] : List String) := by
  unfold detect_headings at hm
  split at hm
  · simp at hm
  · split at hm
    · simp at hm
    · obtain ⟨p, _, hc⟩ := List.mem_filterMap.mp hm
      obtain ⟨hp, _, hl⟩ := classifyBlock_some hc
      exact ⟨hp, hl⟩


theorem detectedPool_mem {pd : List PageRecord} {h : Heading}
    (hm : h ∈ PP.detectedPool pd) :
    ∃ r ∈ pd, is_toc_page r.raw_text = false ∧
      h ∈ detect_headings r.text_blocks r.page_number := by
  unfold PP.detectedPool at hm
  rw [List.mem_flatMap] at hm
  obtain ⟨r, hr, hmem⟩ := hm
  by_cases htoc : is_toc_page r.raw_text = true
  · rw [if_pos htoc] at hmem
    simp at hmem
  · have htoc2 : is_toc_page r.raw_text = false := by
      simpa using htoc
    rw [if_neg htoc] at hmem
    exact ⟨r, hr, htoc2, List.mem_of_mem_filter hmem⟩

theorem pp_extract_headings_subset {pd : List PageRecord} {g : Heading}
    (hg : g ∈ PP.extract_headings pd) : g ∈ PP.detectedPool pd :=
  (List.perm_insertionSort PP.pagePosLe _).mem_iff.mp
    (dedupByKey_subset _ _ hg)

theorem enumFrom_fst_ge {α : Type _} :
    ∀ (n : ℕ) (l : List α), ∀ p ∈ enumFrom n l, n ≤ p.1 := by
  intro n l
  induction l generalizing n with
  | nil => intro p hp; simp [enumFrom] at hp
  | cons a t ih =>
    intro p hp
    rcases List.mem_cons.mp hp with rfl | hp2
    · exact Nat.le_refl n
    · exact Nat.le_trans (Nat.le_succ n) (ih (n + 1) p hp2)

theorem extract_pages_data_page_pos {pages : List RawPage} {r : PageRecord}
    (hr : r ∈ extract_pages_data pages) : 1 ≤ r.page_number := by
  unfold extract_pages_data at hr
  rw [List.mem_filterMap] at hr
  obtain ⟨p, hp, hsome⟩ := hr
  have h1 : 1 ≤ p.1 := enumFrom_fst_ge 1 pages p hp
  by_cases hw : wordCount p.2.text < 20
  · rw [if_pos hw] at hsome
    simp at hsome
  · rw [if_neg hw] at hsome
    by_cases hch : (!p.2.hasChars) = true
    · rw [if_pos hch] at hsome
      simp at hsome
    · rw [if_neg hch] at hsome
      have h2 : (⟨p.1, p.2.blocks, p.2.text⟩ : PageRecord) = r := by
        injection hsome
      rw [← h2]
      exact h1

theorem pp_extract_outline_outline (pages : List RawPage) :
    (PP.extract_outline pages).outline = [] ∨
      (PP.extract_outline pages).outline =
        PP.extract_headings (extract_pages_data pages) := by
  cases htitle : PP.extract_title_e (extract_pages_data pages) with
  | error e =>
    left
    simp [PP.extract_outline, PP.pipelineE, htitle]
  | ok t =>
    right
    simp [PP.extract_outline, PP.pipelineE, htitle]

/-! ## Open-H1 invariant lemmas -/

theorem openH1_nil : OpenH1 ([] : List Heading) := by
  intro i hi
  simp at hi

theorem openH1_cons_h1 {h : Heading} (hh : h.level = "H1") (t : List Heading) :
    OpenH1 (h :: t) := by
  intro i hi hne
  cases i with
  | zero => exact absurd hh hne
  | succ k => exact ⟨0, Nat.succ_pos _, Nat.succ_pos k, hh⟩

theorem openH1Walk_none : ∀ l : List Heading, OpenH1 (HD.openH1Walk l none)
  | [] => openH1_nil
  | h :: t => by
    by_cases hh : h.level = "H1"
    · have heq : HD.openH1Walk (h :: t) none =
          h :: HD.openH1Walk t (some h.text) := by
        simp [HD.openH1Walk, hh]
      rw [heq]
      exact openH1_cons_h1 hh _
    · have heq : HD.openH1Walk (h :: t) none = HD.openH1Walk t none := by
        simp [HD.openH1Walk, hh]
      rw [heq]
      exact openH1Walk_none t

/-! ## Claims C1–C5 and C9 -/

/-- **C1 (amended).**  The open-H1 invariant holds for the outline returned by
the heading_detector.py variant of `extract_outline`, whose `_filter_headings`
performs the hierarchy repair: no heading with a level other than `H1` appears
before the first `H1`.  (The pdf_processor.py variant that `app.py` runs does
no hierarchy repair — see the counterexample.) -/
theorem c1_amended_hd_open_h1 (pages : List RawPage) :
    OpenH1 (HD.extract_outline pages).outline := by
  show OpenH1
    (HD.filter_headings (HD.extract_headings (extract_pages_data pages)))
  unfold HD.filter_headings
  by_cases he : (HD.extract_headings (extract_pages_data pages)).isEmpty = true
  · rw [if_pos he]
    exact openH1_nil
  · rw [if_neg he]
    exact openH1Walk_none _

theorem not_openH1_singleton {h : Heading} (hh : h.level ≠ "H1") :
    ¬ OpenH1 [h] := by
  intro hinv
  obtain ⟨j, hj, hji, _⟩ := hinv 0 (by simp) hh
  exact absurd hji (Nat.not_lt_zero j)

/-- A one-page document whose only detected heading is the H2
`"1.2 Background Research"`; the second block and the raw text are filler so
that the page is kept and the title step succeeds. -/
def c1pages : List RawPage :=
  [⟨"quiet meadow stones drift quiet meadow stones drift quiet meadow stones drift quiet meadow stones drift quiet meadow stones drift",
    true,
    [⟨"1.2 Background Research", 12, false, 0⟩,
     ⟨"quiet meadow stones drift", 12, false, 1⟩]⟩]

/-- **C1 (counterexample).**  The outline returned by the pdf_processor.py
`extract_outline` (the entry point `app.py` uses) starts with an `H2` and
contains no `H1` at all: the open-H1 invariant fails on the final outline. -/
theorem c1_counterexample :
    (PP.extract_outline c1pages).outline =
        [⟨"H2", "1.2 Background Research", 1, 0⟩] ∧
      ¬ OpenH1 (PP.extract_outline c1pages).outline := by
  have heq : (PP.extract_outline c1pages).outline =
      [⟨"H2", "1.2 Background Research", 1, 0⟩] := by decide
  refine ⟨heq, ?_⟩
  rw [heq]
  exact not_openH1_singleton (by decide)

/-- A one-page document with one detected H1 heading, used for C2. -/
def c2pages : List RawPage :=
  [⟨"gentle rivers flow onward gentle rivers flow onward gentle rivers flow onward gentle rivers flow onward gentle rivers flow onward",
    true,
    [⟨"1. Methodology Overview", 12, false, 0⟩,
     ⟨"gentle rivers flow onward", 12, false, 1⟩]⟩]

/-- **C2 (counterexample).**  Every entry of the outline returned by
`extract_outline` carries the key `position` in addition to `level`, `text`
and `page`: the serialized entry keys are not exactly
`{level, text, page}`. -/
theorem c2_counterexample :
    (PP.extract_outline c2pages).outline.map headingJsonKeys =
        [["level", "text", "page", "position"]] ∧
      ∀ ks ∈ (PP.extract_outline c2pages).outline.map headingJsonKeys,
        ks ≠ ["level", "text", "page"] := by
  refine ⟨by decide, by decide⟩

/-- **C2 (amended).**  For every input, the result object's keys are exactly
`{title, outline}`, and every outline entry carries exactly the fields
`level` (one of `H1`, `H2`, `H3`), `text`, `page` (an integer ≥ 1) — and, in
addition, the internal `position` index, which *is* serialized. -/
theorem c2_amended_artifact_shape (pages : List RawPage) :
    resultJsonKeys (PP.extract_outline pages) = ["title", "outline"] ∧
      ∀ h ∈ (PP.extract_outline pages).outline,
        headingJsonKeys h = ["level", "text", "page", "position"] ∧
          h.level ∈ (["H1", "H2", "H3"] : List String) ∧ 1 ≤ h.page := by
  refine ⟨rfl, ?_⟩
  intro h hm
  have hmm : h ∈ PP.extract_headings (extract_pages_data pages) := by
    rcases pp_extract_outline_outline pages with hout | hout
    · rw [hout] at hm
      simp at hm
    · rw [hout] at hm
      exact hm
  obtain ⟨r, hr, _, hd⟩ := detectedPool_mem (pp_extract_headings_subset hmm)
  obtain ⟨hpage, hlvl⟩ := detect_headings_mem hd
  refine ⟨rfl, hlvl, ?_⟩
  rw [hpage]
  exact extract_pages_data_page_pos hr

/-- Witness for the amended C2 on a concrete document. -/
theorem c2_amended_artifact_shape_witness :
    (⟨"H1", "Methodology Overview", 1, 0⟩ : Heading) ∈
        (PP.extract_outline c2pages).outline ∧
      headingJsonKeys ⟨"H1", "Methodology Overview", 1, 0⟩ =
          ["level", "text", "page", "position"] ∧
        ("H1" : String) ∈ (["H1", "H2", "H3"] : List String) ∧ (1 : ℕ) ≤ 1 :=
  ⟨by decide,
    (c2_amended_artifact_shape c2pages).2 ⟨"H1", "Methodology Overview", 1, 0⟩
      (by decide)⟩

/-- **C3.**  In `_extract_headings` (pdf_processor.py) the dedup key is
`(text, page)`: (1) every detected `(text, page)` pair survives into the final
outline, so the same text on two different pages yields an entry for each
page; (2) no two final entries share both text and page, so the same text
twice on one page yields a single entry; (3) each final entry is a detected
heading with the smallest `position` among the detected headings that share
its text and page — the first occurrence in position order wins. -/
theorem c3_dedup_key_includes_page (pd : List PageRecord) :
    (∀ h ∈ PP.detectedPool pd, ∃ g ∈ PP.extract_headings pd,
        g.text = h.text ∧ g.page = h.page) ∧
      (PP.extract_headings pd).Pairwise
        (fun g g2 => ¬(g.text = g2.text ∧ g.page = g2.page)) ∧
      ∀ g ∈ PP.extract_headings pd, g ∈ PP.detectedPool pd ∧
        ∀ h ∈ PP.detectedPool pd, h.text = g.text → h.page = g.page →
          g.position ≤ h.position := by
  have hperm := List.perm_insertionSort PP.pagePosLe (PP.detectedPool pd)
  have hsort : (List.insertionSort PP.pagePosLe
      (PP.detectedPool pd)).Pairwise PP.pagePosLe :=
    List.sorted_insertionSort PP.pagePosLe (PP.detectedPool pd)
  refine ⟨?_, dedupByKey_pairwise _ _, ?_⟩
  · intro h hh
    have hmem : h ∈ List.insertionSort PP.pagePosLe (PP.detectedPool pd) :=
      hperm.mem_iff.mpr hh
    exact dedupByKey_complete _ [] hmem (by simp)
  · intro g hg
    refine ⟨pp_extract_headings_subset hg, ?_⟩
    intro h hh hht hhp
    have hmem : h ∈ List.insertionSort PP.pagePosLe (PP.detectedPool pd) :=
      hperm.mem_iff.mpr hh
    rcases dedupByKey_first _ [] hsort hg h hmem hht hhp with rfl | hle
    · exact Nat.le_refl _
    · rcases hle with hlt | ⟨_, hpos⟩
      · rw [hhp] at hlt
        exact absurd hlt (Nat.lt_irrefl _)
      · exact hpos

/-- Two pages carrying the same heading text, used for the C3 witness. -/
def c3pd : List PageRecord :=
  [⟨1, [⟨"1. Results Summary", 12, false, 0⟩], "steady winds travel north"⟩,
   ⟨2, [⟨"1. Results Summary", 12, false, 0⟩], "steady winds travel south"⟩]

/-- Witness for C3: the text detected on page 2 (also present on page 1)
yields its own entry with page 2. -/
theorem c3_dedup_key_includes_page_witness :
    (⟨"H1", "Results Summary", 2, 0⟩ : Heading) ∈ PP.detectedPool c3pd ∧
      ∃ g ∈ PP.extract_headings c3pd,
        g.text = "Results Summary" ∧ g.page = 2 :=
  ⟨by decide,
    (c3_dedup_key_includes_page c3pd).1 ⟨"H1", "Results Summary", 2, 0⟩
      (by decide)⟩

/-- A one-page document failing the *generic junk-page* check (it contains
both "references" and "bibliography") but passing the TOC-page check, with a
detectable heading. -/
def c4pages : List RawPage :=
  [⟨"references bibliography calm fields rest calm fields rest calm fields rest calm fields rest calm fields rest calm fields rest",
    true,
    [⟨"1. Introduction Heading", 12, false, 0⟩,
     ⟨"calm fields rest here now", 12, false, 1⟩]⟩]

/-- **C4 (counterexample).**  A page failing the generic junk-page check is
*not* excluded by the outline pipeline `app.py` runs: a heading from that page
appears in the final outline. -/
theorem c4_counterexample :
    is_junk_page (c4pages.headD ⟨"", true, []⟩).text = true ∧
      (PP.extract_outline c4pages).outline =
        [⟨"H1", "Introduction Heading", 1, 0⟩] := by
  refine ⟨by decide, by decide⟩

/-- **C4 (amended).**  In the pdf_processor.py pipeline only the TOC-page
check excludes pages from heading extraction: every heading of the final
outline originates from a page record that passes `_is_toc_page` (the generic
junk-page check `_is_junk_page` is consulted only by the heading_detector.py
variant). -/
theorem c4_amended_toc_check_only (pd : List PageRecord) (h : Heading)
    (hm : h ∈ PP.extract_headings pd) :
    ∃ r ∈ pd, is_toc_page r.raw_text = false ∧ h.page = r.page_number ∧
      h ∈ detect_headings r.text_blocks r.page_number := by
  obtain ⟨r, hr, htoc, hd⟩ := detectedPool_mem (pp_extract_headings_subset hm)
  exact ⟨r, hr, htoc, (detect_headings_mem hd).1, hd⟩

/-- A clean one-page record for the amended-C4 witness. -/
def c4wpd : List PageRecord :=
  [⟨1, [⟨"1. Annual Summary Report", 12, false, 0⟩], "calm open skies above"⟩]

/-- Witness for the amended C4. -/
theorem c4_amended_toc_check_only_witness :
    (⟨"H1", "Annual Summary Report", 1, 0⟩ : Heading) ∈
        PP.extract_headings c4wpd ∧
      ∃ r ∈ c4wpd, is_toc_page r.raw_text = false ∧
        (⟨"H1", "Annual Summary Report", 1, 0⟩ : Heading).page =
          r.page_number ∧
        (⟨"H1", "Annual Summary Report", 1, 0⟩ : Heading) ∈
          detect_headings r.text_blocks r.page_number :=
  ⟨by decide, c4_amended_toc_check_only c4wpd _ (by decide)⟩

/-- **C5.**  `extract_outline` (pdf_processor.py) recovers every
document-level failure: whenever the pipeline raises, the result is the
well-formed fallback `{"title": "", "outline": []}`, and whenever it does not,
the pipeline's value is returned unchanged — no exception ever propagates. -/
theorem c5_total_recovery (pages : List RawPage) :
    (∀ e, PP.pipelineE pages = .error e →
        PP.extract_outline pages = ⟨"", []⟩) ∧
      ∀ r, PP.pipelineE pages = .ok r → PP.extract_outline pages = r := by
  constructor
  · intro e he
    unfold PP.extract_outline
    rw [he]
  · intro r hr
    unfold PP.extract_outline
    rw [hr]

/-- A document on which the pipeline raises (single-block first page, so the
percentile computation fails), used for the C5 witness. -/
def c5pages : List RawPage :=
  [⟨"drifting clouds pass slowly drifting clouds pass slowly drifting clouds pass slowly drifting clouds pass slowly drifting clouds pass slowly",
    true,
    [⟨"9. Quarterly Planning Session", 14, true, 0⟩]⟩]

/-- Witness for C5 on a concretely failing document. -/
theorem c5_total_recovery_witness :
    PP.pipelineE c5pages =
        Except.error "StatisticsError: must have at least two data points" ∧
      PP.extract_outline c5pages = ⟨"", []⟩ :=
  ⟨rfl, (c5_total_recovery c5pages).1 _ rfl⟩

def defaultPR : PageRecord := ⟨0, [], ""⟩

/-- **C9.**  If the first kept page yields exactly one text block, the
percentile computation in `_extract_title` raises (`statistics.quantiles`
needs at least two data points), the exception is caught at the top level, and
`extract_outline` returns `{"title": "", "outline": []}` for the whole
document — every heading from every page is discarded, not just the title. -/
theorem c9_single_block_first_page_aborts (pages : List RawPage)
    (h1 : extract_pages_data pages ≠ [])
    (h2 : ((extract_pages_data pages).headD defaultPR).text_blocks.length = 1) :
    PP.extract_outline pages = ⟨"", []⟩ := by
  rcases hpd : extract_pages_data pages with _ | ⟨fp, rest⟩
  · exact absurd hpd h1
  · rw [hpd] at h2
    have h2f : fp.text_blocks.length = 1 := by simpa using h2
    have htake : (fp.text_blocks.take 5).length = 1 := by
      rw [List.length_take, h2f]
      decide
    have hne : (fp.text_blocks.take 5).isEmpty = false := by
      cases htb : fp.text_blocks.take 5 with
      | nil =>
        rw [htb] at htake
        simp at htake
      | cons a l => simp
    have hlen : ((fp.text_blocks.take 5).map (fun b => b.font_size)).length
        = 1 := by
      rw [List.length_map]
      exact htake
    have hlt : ((fp.text_blocks.take 5).map (fun b => b.font_size)).length
        < 2 := by
      rw [List.length_map, htake]
      decide
    have hq : PP.quantile75E
        ((fp.text_blocks.take 5).map (fun b => b.font_size)) =
        Except.error "StatisticsError: must have at least two data points" := by
      unfold PP.quantile75E
      rw [if_pos hlt]
    have herr : PP.extract_title_e (fp :: rest) =
        Except.error "StatisticsError: must have at least two data points" := by
      simp only [PP.extract_title_e]
      rw [hne]
      rw [if_neg (by simp)]
      rw [hq]
    unfold PP.extract_outline PP.pipelineE
    rw [hpd, herr]

/-- A document whose single kept page has exactly one block — a block that
would itself be detected as a heading, yet the whole outline is discarded. -/
def c9pages : List RawPage :=
  [⟨"morning light settles gently morning light settles gently morning light settles gently morning light settles gently morning light settles gently",
    true,
    [⟨"2. Financial Outcomes Review", 16, true, 0⟩]⟩]

/-- Witness for C9. -/
theorem c9_single_block_first_page_aborts_witness :
    extract_pages_data c9pages ≠ [] ∧
      ((extract_pages_data c9pages).headD defaultPR).text_blocks.length = 1 ∧
      PP.extract_outline c9pages = ⟨"", []⟩ :=
  ⟨by decide, by decide,
    c9_single_block_first_page_aborts c9pages (by decide) (by decide)⟩
